import Mathlib

/-!
Shallow embedding of the exchange-connectivity core of the repository
(`src/exchanges/...`) and proofs about the specified properties.

Conventions of the embedding:
* Rust `String` is Lean `String` (a list of unicode scalar values; for the
  ASCII data handled here, byte order and scalar order coincide).
* `HashMap<String, String>` values are association lists together with the
  insert-or-replace operation `hmInsert`; iteration order is the list order,
  which is deliberately left arbitrary, mirroring `HashMap`'s unspecified
  iteration order.
* `rust_decimal::Decimal` is modelled as a scaled integer
  (`mantissa * 10 ^ (-scale)`).  The string parser below covers plain decimal
  literals (optional sign, digits, optional fractional part); the library's
  96-bit capacity limit and underscore separators are outside the inputs the
  claims exercise.
* Fallible Rust functions returning `Result` become `Except`; `Option`
  stays `Option`.
* Async functions are embedded as pure state-passing functions; network I/O
  results (HTTP responses, already-deserialized bodies) are taken as inputs.
-/

namespace Spec2Proof

/-! ## Decimal: model of `rust_decimal::Decimal` -/

/-- Model of `rust_decimal::Decimal`: value is `mantissa / 10 ^ scale`.
`Decimal::default()` / `Decimal::ZERO` is `⟨0, 0⟩`. -/
structure Decimal where
  mantissa : Int
  scale : Nat
deriving DecidableEq, Repr

instance : Inhabited Decimal := ⟨⟨0, 0⟩⟩

/-- `Decimal::is_zero`. -/
def Decimal.is_zero (d : Decimal) : Bool := d.mantissa = 0

/-- `Decimal::is_sign_positive`.  `rust_decimal` keeps a sign flag; for a
nonzero value it agrees with `0 ≤ mantissa`, and the only uses in this
repository combine it with `!is_zero`, where the two models agree. -/
def Decimal.is_sign_positive (d : Decimal) : Bool := 0 ≤ d.mantissa

/-- Digits of a decimal literal folded into a natural number. -/
def digitsToNat (cs : List Char) : Nat :=
  cs.foldl (fun n c => n * 10 + (c.toNat - 48)) 0

/-- Model of `Decimal::from_str` (the `FromStr` impl of `rust_decimal`):
optional sign, integer digits, optional `.` followed by at least one
fraction digit; anything else is a parse error. -/
def Decimal.from_str (s : String) : Option Decimal :=
  let (neg, cs) :=
    match s.data with
    | '-' :: rest => (true, rest)
    | '+' :: rest => (false, rest)
    | cs => (false, cs)
  let ints := cs.takeWhile Char.isDigit
  let rest := cs.dropWhile Char.isDigit
  let sign : Int := if neg then -1 else 1
  match rest with
  | [] =>
    if ints.isEmpty then none
    else some ⟨sign * digitsToNat ints, 0⟩
  | '.' :: rest2 =>
    let fracs := rest2.takeWhile Char.isDigit
    let rest3 := rest2.dropWhile Char.isDigit
    if rest3.isEmpty ∧ ¬ fracs.isEmpty then
      some ⟨sign * digitsToNat (ints ++ fracs), fracs.length⟩
    else none
  | _ => none

/-! ## Domain types (`src/domain/orderbook.rs`) -/

/-- `PriceLevel` from `src/domain/orderbook.rs`. -/
structure PriceLevel where
  price : Decimal
  quantity : Decimal
deriving DecidableEq, Repr

/-- `Orderbook` from `src/domain/orderbook.rs`.  `SystemTime` timestamps are
milliseconds since the unix epoch (the code always builds them as
`UNIX_EPOCH + Duration::from_millis(ms)`). -/
structure Orderbook where
  pair : String
  exchange : String
  bids : List PriceLevel
  asks : List PriceLevel
  timestamp : Int
deriving DecidableEq, Repr

/-! ## Pair/symbol conversion (`src/exchanges/utils.rs`,
duplicated in `src/exchanges/poloniex/websocket.rs`) -/

/-- `str::replace(from_char, to_char_string)` for a single-character pattern
and single-character replacement. -/
def replaceChar (s : String) (a b : Char) : String :=
  ⟨s.data.map fun c => if c = a then b else c⟩

/-- `pair_to_symbol`: converts `"BTC/USDT"` to `"BTC_USDT"`. -/
def pair_to_symbol (pair : String) : String :=
  replaceChar pair '/' '_'

/-- `symbol_to_pair`: converts `"BTC_USDT"` to `"BTC/USDT"`. -/
def symbol_to_pair (symbol : String) : String :=
  replaceChar symbol '_' '/'

/-! ## Price-level parsing -/

/-- `parse_price_levels` from `src/exchanges/utils.rs`: parses a flat array
`[price, qty, price, qty, ...]` into `PriceLevel`s.  Note it keeps levels
whose quantity is zero. -/
def parse_price_levels : List String → List PriceLevel
  | a :: b :: rest =>
    match Decimal.from_str a, Decimal.from_str b with
    | some price, some quantity => ⟨price, quantity⟩ :: parse_price_levels rest
    | _, _ => parse_price_levels rest
  | _ => []

/-- `parse_levels` from `src/exchanges/poloniex/websocket.rs`: parses
`[[price, qty], ...]` rows, skipping rows shorter than 2, rows that fail to
parse, and rows whose quantity is zero. -/
def parse_levels : List (List String) → List PriceLevel
  | [] => []
  | level :: rest =>
    match level with
    | p :: q :: _ =>
      match Decimal.from_str p, Decimal.from_str q with
      | some price, some quantity =>
        if quantity.is_zero then parse_levels rest
        else ⟨price, quantity⟩ :: parse_levels rest
      | _, _ => parse_levels rest
    | _ => parse_levels rest

/-! ## Depth normalization (`src/exchanges/poloniex/websocket.rs`) -/

/-- `normalize_depth`: normalizes an orderbook depth (a `u8`) to the Poloniex
supported values 5, 10, 20. -/
def normalize_depth (depth : Nat) : Nat :=
  if depth ≤ 5 then 5
  else if depth ≤ 10 then 10
  else 20

/-! ## Websocket orderbook messages (`src/exchanges/poloniex/websocket.rs`) -/

/-- One entry of the `data` array of a Poloniex book message, after JSON
deserialization (`OrderbookData`, `#[serde(rename_all = "camelCase")]`). -/
structure OrderbookData where
  symbol : String
  create_time : Option Int
  asks : List (List String)
  bids : List (List String)
  id : Int
  ts : Option Int
deriving DecidableEq, Repr

/-- A deserialized Poloniex websocket message (`OrderbookMessage`). -/
structure OrderbookMessage where
  channel : Option String
  event : Option String
  data : Option (List OrderbookData)
deriving DecidableEq, Repr

/-- `parse_message` from `src/exchanges/poloniex/websocket.rs`, starting from
the deserialized message (the `serde_json::from_str` step is the JSON
library's).  Returns `none` for non-book channels, control events
(`subscribe` / `pong`), and messages without data. -/
def parse_message (msg : OrderbookMessage) : Option Orderbook := do
  if msg.channel ≠ some "book" then none
  else
    match msg.event with
    | some e =>
      if e = "subscribe" ∨ e = "pong" then none
      else parse_message_data msg
    | none => parse_message_data msg
where
  /-- The tail of `parse_message` after the channel/event guards. -/
  parse_message_data (msg : OrderbookMessage) : Option Orderbook := do
    let d ← msg.data
    let data ← d.head?
    let timestamp := (data.ts.or data.create_time).getD 0
    some
      { exchange := "poloniex"
        pair := symbol_to_pair data.symbol
        bids := parse_levels data.bids
        asks := parse_levels data.asks
        timestamp := timestamp }

/-! ## Error taxonomy -/

/-- `ExchangeError` from `src/exchanges/mod.rs`. -/
inductive ExchangeError where
  | PairNotSupported (pair : String)
  | InsufficientFunds
  | OrderNotFound (id : String)
  | Connection (msg : String)
  | Api (msg : String)
  | Internal (msg : String)
deriving DecidableEq, Repr

/-- `ApiError` from `src/exchanges/poloniex/client.rs` (`code` is an `i32`
taken from the provider body or the HTTP status). -/
structure ApiError where
  code : Int
  message : String
deriving DecidableEq, Repr

/-- `ClientError` from `src/exchanges/poloniex/client.rs`.  The `Request` and
`Json` variants wrap external library errors; only their rendered message is
modelled. -/
inductive ClientError where
  | RateLimitExceeded (current limit : Int)
  | Request (msg : String)
  | Json (msg : String)
  | Api (err : ApiError)
deriving DecidableEq, Repr

/-- `Display` of `ApiError` (`#[error("poloniex api error {code}: {message}")]`). -/
def ApiError.display (e : ApiError) : String :=
  "poloniex api error " ++ toString e.code ++ ": " ++ e.message

/-- `Display` of `ClientError` as produced by the `thiserror` attributes. -/
def ClientError.display : ClientError → String
  | .RateLimitExceeded current limit =>
    "rate limit exceeded: " ++ toString current ++ "/" ++ toString limit ++
      " per minute"
  | .Request msg => "request error: " ++ msg
  | .Json msg => "json error: " ++ msg
  | .Api err => err.display

/-! ## REST orderbook snapshot (`src/exchanges/poloniex/exchange.rs`) -/

/-- The deserialized `/markets/{symbol}/orderBook` response
(`OrderbookResponse`). -/
structure OrderbookResponse where
  time : Int
  scale : Option String
  asks : List String
  bids : List String
  ts : Int
deriving DecidableEq, Repr

/-- `OrderbookResponse::to_orderbook`: builds the domain `Orderbook` from a
REST snapshot using `parse_price_levels` (which does not filter
zero-quantity levels). -/
def OrderbookResponse.to_orderbook (resp : OrderbookResponse) (pair : String) :
    Orderbook :=
  { exchange := "poloniex"
    pair := pair
    bids := parse_price_levels resp.bids
    asks := parse_price_levels resp.asks
    timestamp := if resp.ts ≠ 0 then resp.ts else resp.time }

/-- `map_client_error` from `src/exchanges/poloniex/exchange.rs`: maps
Poloniex client errors to exchange errors (used by `place_order` only). -/
def map_client_error (err : ClientError) (pair : String) : ExchangeError :=
  match err with
  | .Api apiErr =>
    if apiErr.code = 21603 then .InsufficientFunds
    else if apiErr.code = 21606 then .OrderNotFound pair
    else if apiErr.code = 21601 then .PairNotSupported pair
    else .Api ("poloniex error for " ++ pair ++ ": " ++ apiErr.display)
  | .RateLimitExceeded _ _ =>
    .Api ("rate limit exceeded for " ++ pair)
  | other => .Api other.display

/-- `PoloniexExchange::get_orderbook`, as a function of the connected flag
and the outcome of the client call (`Client::request` for
`GET /markets/{symbol}/orderBook` followed by `serde_json` deserialization;
`.error` is a client failure, `.ok (.error e)` a body that fails to
deserialize with rendered error `e`, `.ok (.ok resp)` a parsed snapshot). -/
def get_orderbook (connected : Bool) (pair : String)
    (clientResult : Except ClientError (Except String OrderbookResponse)) :
    Except ExchangeError Orderbook :=
  if !connected then .error (.Connection "not connected")
  else
    match clientResult with
    | .error e =>
      .error (.Api ("get orderbook for " ++ pair ++ ": " ++ e.display))
    | .ok (.error e) => .error (.Api ("parse orderbook: " ++ e))
    | .ok (.ok resp) => .ok (resp.to_orderbook pair)

/-! ## URL encoding (the `urlencoding` crate) -/

/-- Characters the `urlencoding` crate leaves unescaped:
ASCII alphanumerics and `-`, `.`, `_`, `~`. -/
def isUrlUnreserved (c : Char) : Bool :=
  c.isAlphanum || c = '-' || c = '.' || c = '_' || c = '~'

/-- Uppercase hexadecimal digit for `n < 16`. -/
def hexDigit (n : Nat) : Char :=
  if n < 10 then Char.ofNat (48 + n) else Char.ofNat (55 + n)

/-- UTF-8 bytes of a unicode scalar value. -/
def utf8Bytes (n : Nat) : List Nat :=
  if n < 0x80 then [n]
  else if n < 0x800 then [0xC0 + n / 64, 0x80 + n % 64]
  else if n < 0x10000 then
    [0xE0 + n / 4096, 0x80 + (n / 64) % 64, 0x80 + n % 64]
  else
    [0xF0 + n / 262144, 0x80 + (n / 4096) % 64, 0x80 + (n / 64) % 64,
      0x80 + n % 64]

/-- `%XX` escape of one byte. -/
def percentByte (b : Nat) : List Char :=
  ['%', hexDigit (b / 16), hexDigit (b % 16)]

/-- Percent-escapes of all UTF-8 bytes of one character. -/
def encodeCharBytes : List Nat → List Char
  | [] => []
  | b :: rest => percentByte b ++ encodeCharBytes rest

/-- `urlencoding::encode`: unreserved characters pass through, everything
else is percent-encoded byte-by-byte. -/
def urlencodeChars : List Char → List Char
  | [] => []
  | c :: rest =>
    (if isUrlUnreserved c then [c] else encodeCharBytes (utf8Bytes c.toNat)) ++
      urlencodeChars rest

/-- `urlencoding::encode` on a string. -/
def urlencode (s : String) : String := ⟨urlencodeChars s.data⟩

/-! ## Client request signing (`src/exchanges/poloniex/client.rs`) -/

/-- Lexicographic order on scalar values; for UTF-8 this coincides with the
byte-wise order `str::cmp` uses (UTF-8 preserves code-point order). -/
def lexLe : List Char → List Char → Bool
  | [], _ => true
  | _ :: _, [] => false
  | a :: as', b :: bs' =>
    if a.toNat < b.toNat then true
    else if b.toNat < a.toNat then false
    else lexLe as' bs'

/-- `str::cmp`-compatible `≤` on strings. -/
def strLe (a b : String) : Bool := lexLe a.data b.data

/-- `HashMap::insert` on the association-list model: replaces the value of an
existing key, otherwise appends the binding. -/
def hmInsert {α : Type} (m : List (String × α)) (k : String) (v : α) :
    List (String × α) :=
  if m.any (fun kv => kv.1 = k) then
    m.map (fun kv => if kv.1 = k then (k, v) else kv)
  else m ++ [(k, v)]

/-- Key lookup on the association-list model (`HashMap::get` up to cloning). -/
def hmContains {α : Type} (m : List (String × α)) (k : String) : Bool :=
  m.any (fun kv => kv.1 = k)

/-- `sorted_params.sort_by(|a, b| a.0.cmp(b.0))`: a stable sort of the
parameter list by key (with distinct keys every correct sort agrees). -/
def sorted_params (params : List (String × String)) : List (String × String) :=
  List.insertionSort (fun a b => strLe a.1 b.1 = true) params

/-- The GET/DELETE query payload of `Client::request`: parameters sorted by
key, values URL-encoded, joined as `key=value&key=value`. -/
def build_query_payload (params : List (String × String)) : String :=
  String.intercalate "&"
    ((sorted_params params).map fun kv => kv.1 ++ "=" ++ urlencode kv.2)

/-- The subset of `reqwest::Method` the client uses. -/
inductive Method where
  | GET
  | POST
  | DELETE
deriving DecidableEq, Repr

/-- `Method::as_str`. -/
def Method.asStr : Method → String
  | .GET => "GET"
  | .POST => "POST"
  | .DELETE => "DELETE"

/-- The string `Client::sign` feeds into HMAC-SHA256 (the `sign_payload`
local of `Client::sign`; the HMAC/base64 step itself is the crypto
library's and is not needed by the claims). -/
def sign_payload (method : Method) (endpoint : String) (timestamp : Int)
    (payload : String) : String :=
  if method = .GET then
    if payload = "" then
      method.asStr ++ "\n" ++ endpoint ++ "\nsignTimestamp=" ++
        toString timestamp
    else
      method.asStr ++ "\n" ++ endpoint ++ "\n" ++ payload
  else
    if payload = "" then
      method.asStr ++ "\n" ++ endpoint ++ "\nsignTimestamp=" ++
        toString timestamp
    else
      method.asStr ++ "\n" ++ endpoint ++ "\nrequestBody=" ++ payload ++
        "&signTimestamp=" ++ toString timestamp

/-- The query payload a GET/DELETE call of `Client::request` builds before
signing: `signTimestamp` is inserted into the parameter map when the request
is signed, then the map is sorted by key, URL-encoded and joined. -/
def read_request_payload (params : List (String × String)) (signed : Bool)
    (timestamp : Int) : String :=
  let params :=
    if signed then hmInsert params "signTimestamp" (toString timestamp)
    else params
  build_query_payload params

/-- The signing string a signed GET/DELETE call of `Client::request`
ultimately hands to HMAC: the query payload above passed through
`Client::sign`. -/
def read_request_sign_payload (method : Method) (endpoint : String)
    (params : List (String × String)) (timestamp : Int) : String :=
  sign_payload method endpoint timestamp (read_request_payload params true timestamp)

/-! ## Rate limiting (`src/exchanges/poloniex/client.rs`) -/

/-- The rate-limit state of `Client`: `window_start` is the `Instant` held in
`RateLimitState` (milliseconds on a monotonic clock) and `request_count` the
`AtomicI64` counter.  The counter starts at 0 and is only incremented or
reset, so it is represented as a `Nat`. -/
structure RateLimitState where
  window_start : Nat
  request_count : Nat
deriving DecidableEq, Repr

/-- `Client::check_rate_limit` at monotonic time `now`: an expired window
(strictly more than 5 seconds old — the code's
`window_start.elapsed() > Duration::from_secs(5)`) resets the counter and
the window start; then `request_count >= limit` fails with
`RateLimitExceeded { current, limit }`, otherwise the check passes. -/
def check_rate_limit (limit : Nat) (now : Nat) (s : RateLimitState) :
    Except ClientError Unit × RateLimitState :=
  let s :=
    if now - s.window_start > 5000 then
      { window_start := now, request_count := 0 }
    else s
  if s.request_count ≥ limit then
    (.error (.RateLimitExceeded s.request_count limit), s)
  else (.ok (), s)

/-- `Client::increment_request_count`. -/
def increment_request_count (s : RateLimitState) : RateLimitState :=
  { s with request_count := s.request_count + 1 }

/-- The rate-limit bookkeeping of one `Client::request` call whose HTTP send
completes: the check runs first and its failure is returned unchanged (the
request is never queued or retried); on a pass the counter is incremented
after the send. -/
def request_rl (limit : Nat) (now : Nat) (s : RateLimitState) :
    Except ClientError Unit × RateLimitState :=
  match check_rate_limit limit now s with
  | (.error e, s') => (.error e, s')
  | (.ok _, s') => (.ok (), increment_request_count s')

/-- A sequence of requests at the given monotonic times, threading the
rate-limit state; returns one outcome per request. -/
def run_requests (limit : Nat) : List Nat → RateLimitState →
    List (Except ClientError Unit) × RateLimitState
  | [], s => ([], s)
  | t :: ts, s =>
    let (r, s') := request_rl limit t s
    let (rs, s'') := run_requests limit ts s'
    (r :: rs, s'')

/-! ## Disconnect (`src/exchanges/poloniex/exchange.rs` and
`WebSocketManager::close` in `src/exchanges/poloniex/websocket.rs`) -/

/-- The state of a `WebSocketManager` relevant to `close`: the `closed`
atomic flag and whether the `sink` option currently holds a transport. -/
structure WsManagerState where
  closed : Bool
  sink_present : Bool
deriving DecidableEq, Repr

/-- `WebSocketManager::close`: returns immediately when already closed;
otherwise marks the manager closed and takes the sink out.  The transport's
own `close()` outcome (`transport_close_fails`) is only logged — it affects
neither the resulting state nor any returned error (`close` returns `()`). -/
def ws_close (transport_close_fails : Bool) (s : WsManagerState) :
    WsManagerState :=
  if s.closed then s
  else
    let _ := transport_close_fails
    { closed := true, sink_present := false }

/-- The state of a `PoloniexExchange` relevant to `disconnect`: the
`connected` atomic flag and the optional stored websocket manager. -/
structure PoloniexConnState where
  connected : Bool
  websocket_manager : Option WsManagerState
deriving DecidableEq, Repr

/-- `PoloniexExchange::disconnect`: stores `false` into the connected flag,
closes the websocket manager when one is stored, and returns `Ok(())`.  No
path returns an error, whatever the transport teardown does. -/
def disconnect (transport_close_fails : Bool) (s : PoloniexConnState) :
    Except ExchangeError Unit × PoloniexConnState :=
  let s := { s with connected := false }
  match s.websocket_manager with
  | some m =>
    (.ok (), { s with websocket_manager := some (ws_close transport_close_fails m) })
  | none => (.ok (), s)

/-! ## Registry (`src/exchanges/manager.rs`) and configuration
(`src/config/exchange.rs`) -/

/-- `WebSocketConfig` from `src/config/exchange.rs` (durations in
milliseconds). -/
structure WebSocketSettings where
  enabled : Bool
  ping_interval : Nat
  reconnect_delay : Nat
deriving DecidableEq, Repr

/-- `ExchangeConfig` from `src/config/exchange.rs`. -/
structure ExchangeConfig where
  enabled : Bool
  testnet : Bool
  api_key : String
  api_secret : String
  fee_taker : Option String
  rate_limit : Option Int
  websocket : Option WebSocketSettings
deriving DecidableEq, Repr

/-- The part of `Config` (`src/config/mod.rs`) that `Manager::from_config`
reads: the exchange map (association list in `HashMap` iteration order).
The remaining fields (app, orderbook, arbitrage, …) are not consulted. -/
structure Config where
  exchanges : List (String × ExchangeConfig)
  pairs : List String
deriving DecidableEq, Repr

/-- `str::to_lowercase` (ASCII-faithful character map). -/
def toLowercase (s : String) : String := ⟨s.data.map Char.toLower⟩

/-- A registered exchange as the registry sees it: `register` only consults
`Exchange::name()`, so the trait object is modelled by its name. -/
structure ExchangeInstance where
  iname : String
deriving DecidableEq, Repr

/-- `Manager::create_exchange`: the factory match over the lowercased name.
Every arm of the source returns an error — the `"poloniex"` and
`"gate"`-family arms are `TODO` stubs answering
`Internal("exchange {name} is not yet implemented")`, and unknown names
answer `Internal("unknown exchange: {name}")`. -/
def create_exchange (name : String) (config : ExchangeConfig) :
    Except ExchangeError ExchangeInstance :=
  let _ := config
  let lower := toLowercase name
  if lower = "poloniex" then
    .error (.Internal ("exchange " ++ name ++ " is not yet implemented"))
  else if lower = "gate" ∨ lower = "gateio" ∨ lower = "gate.io" then
    .error (.Internal ("exchange " ++ name ++ " is not yet implemented"))
  else
    .error (.Internal ("unknown exchange: " ++ name))

/-- The registry map of `Manager` (name → adapter handle). -/
def Manager := List (String × ExchangeInstance)

/-- `Manager::register`: insert-or-replace under the exchange's own name. -/
def Manager.register (m : Manager) (ex : ExchangeInstance) : Manager :=
  hmInsert m ex.iname ex

/-- `Manager::list`: all registered names. -/
def Manager.list (m : Manager) : List String := m.map Prod.fst

/-- The loop body of `Manager::from_config`: disabled entries are skipped,
enabled ones go through `create_exchange`, and the first factory error
aborts the whole construction. -/
def from_config_aux : List (String × ExchangeConfig) → Manager →
    Except ExchangeError Manager
  | [], m => .ok m
  | (name, ec) :: rest, m =>
    if !ec.enabled then from_config_aux rest m
    else
      match create_exchange name ec with
      | .error e => .error e
      | .ok ex => from_config_aux rest (m.register ex)

/-- `Manager::from_config`, starting from the empty registry of
`Manager::new`. -/
def Manager.from_config (config : Config) : Except ExchangeError Manager :=
  from_config_aux config.exchanges []

/-! ## Balances (`PoloniexExchange::get_balances`) -/

/-- `Balance` from `src/exchanges/poloniex/exchange.rs` (one currency of one
account, all fields wire strings). -/
structure Balance where
  currency_id : String
  currency : String
  available : String
  hold : String
deriving DecidableEq, Repr

/-- `AccountBalance` from `src/exchanges/poloniex/exchange.rs`. -/
structure AccountBalance where
  account_id : String
  account_type : String
  balances : List Balance
deriving DecidableEq, Repr

/-- The inner loop of `get_balances`: each balance's `available` field is
parsed (`unwrap_or_default`, i.e. zero on parse failure) and inserted when
strictly positive (`is_sign_positive && !is_zero`). -/
def insert_spot_balances (m : List (String × Decimal)) :
    List Balance → List (String × Decimal)
  | [] => m
  | b :: rest =>
    let available := (Decimal.from_str b.available).getD default
    let m :=
      if available.is_sign_positive && !available.is_zero then
        hmInsert m b.currency available
      else m
    insert_spot_balances m rest

/-- The outer loop of `get_balances`: accounts whose `account_type` is not
`"SPOT"` are skipped entirely. -/
def collect_balances_aux (m : List (String × Decimal)) :
    List AccountBalance → List (String × Decimal)
  | [] => m
  | a :: rest =>
    let m :=
      if a.account_type ≠ "SPOT" then m
      else insert_spot_balances m a.balances
    collect_balances_aux m rest

/-- The balances map `get_balances` builds from the deserialized accounts. -/
def collect_balances (accounts : List AccountBalance) :
    List (String × Decimal) :=
  collect_balances_aux [] accounts

/-- `PoloniexExchange::get_balances`, as a function of the connected flag and
the outcome of the client call (`GET /accounts/balances` followed by
deserialization). -/
def get_balances (connected : Bool)
    (clientResult : Except ClientError (Except String (List AccountBalance))) :
    Except ExchangeError (List (String × Decimal)) :=
  if !connected then .error (.Connection "not connected")
  else
    match clientResult with
    | .error e => .error (.Api ("get balances: " ++ e.display))
    | .ok (.error e) => .error (.Api ("parse balances: " ++ e))
    | .ok (.ok accounts) => .ok (collect_balances accounts)

/-! ## Theorems -/

/-- C1: the claim says a configuration with one enabled, known-provider
exchange (`"poloniex"`) and one disabled exchange builds a registry whose
`list()` is exactly the enabled name.  The code disagrees:
`Manager::create_exchange` is a `TODO` stub that answers
`Internal("exchange poloniex is not yet implemented")` for the `"poloniex"`
arm even though a complete `PoloniexExchange` exists in the crate, so
`from_config` fails on exactly this configuration (while a fully disabled
configuration still builds an empty registry, as the code's own test
expects). -/
theorem c1_from_config_poloniex_stub :
    Manager.from_config
      ⟨[("poloniex", ⟨true, false, "", "", some "0.001", none, none⟩),
        ("gate", ⟨false, false, "", "", none, none, none⟩)], ["BTC/USDT"]⟩ =
      .error (.Internal "exchange poloniex is not yet implemented") ∧
    Manager.from_config
      ⟨[("poloniex", ⟨false, false, "", "", some "0.001", none, none⟩),
        ("gate", ⟨false, false, "", "", none, none, none⟩)], ["BTC/USDT"]⟩ =
      .ok [] := by
  constructor <;> rfl

/-- C2: the claim says a signed DELETE is signed exactly like a GET —
signing string `METHOD\n/endpoint\n<sorted-query-payload>`.  In the code,
`Client::request` does build the DELETE payload GET-style (sorted query with
`signTimestamp` injected), but `Client::sign` routes every non-GET method
through the write-style branch, wrapping that query payload as
`requestBody=<payload>&signTimestamp=<ts>` — so the signing string of the
repository's one signed DELETE (`cancel_order`) carries `signTimestamp`
twice and differs from the GET shape the claim describes. -/
theorem c2_delete_signing_mismatch :
    read_request_sign_payload .DELETE "/orders/123" [] 1700000000000 =
      "DELETE\n/orders/123\nrequestBody=signTimestamp=1700000000000&signTimestamp=1700000000000" ∧
    read_request_sign_payload .GET "/orders/123" [] 1700000000000 =
      "GET\n/orders/123\nsignTimestamp=1700000000000" ∧
    read_request_sign_payload .DELETE "/orders/123" [] 1700000000000 ≠
      "DELETE\n/orders/123\n" ++ read_request_payload [] true 1700000000000 := by
  refine ⟨rfl, rfl, ?_⟩
  decide

/-- C4: the claim (and the `Exchange` trait documentation) says
`get_orderbook` fails with `PairNotSupported` for an unknown market.  The
code returns `ConnectionError` when not connected (first conjunct, as
claimed), but wraps every client failure — including Poloniex's
"pair not supported" code 21601 — in a generic `Api` error (second
conjunct), because `get_orderbook` never routes through `map_client_error`,
which would have produced `PairNotSupported` (third conjunct). -/
theorem c4_get_orderbook_error_mapping :
    (∀ (pair : String)
      (r : Except ClientError (Except String OrderbookResponse)),
      get_orderbook false pair r = .error (.Connection "not connected")) ∧
    get_orderbook true "XXX/YYY" (.error (.Api ⟨21601, "Invalid symbol"⟩)) =
      .error
        (.Api "get orderbook for XXX/YYY: poloniex api error 21601: Invalid symbol") ∧
    map_client_error (.Api ⟨21601, "Invalid symbol"⟩) "XXX/YYY" =
      .PairNotSupported "XXX/YYY" := by
  refine ⟨fun pair r => rfl, rfl, rfl⟩

/-- C6: `disconnect()` is idempotent and infallible: a single call returns
`Ok(())`, a second call returns `Ok(())` as well and leaves the state
exactly where the first call left it, whatever the websocket transport's
`close()` reported on either call. -/
theorem c6_disconnect_idempotent (s : PoloniexConnState) (e1 e2 : Bool) :
    (disconnect e1 s).1 = .ok () ∧
    (disconnect e2 (disconnect e1 s).2).1 = .ok () ∧
    (disconnect e2 (disconnect e1 s).2).2 = (disconnect e1 s).2 := by
  obtain ⟨c, wm⟩ := s
  match wm with
  | none => simp [disconnect]
  | some ⟨mc, sp⟩ => cases mc <;> simp [disconnect, ws_close]

/-- C9 counterexample: for requested depth 21 there is no supported value
(5, 10, 20) that is ≥ 21, and the code sends 20, which is *below* the
request — refuting "the smallest supported value greater than or equal to
the requested depth" as a description of every input. -/
theorem c9_counterexample :
    normalize_depth 21 = 20 ∧ ¬ 21 ≤ normalize_depth 21 := by
  decide

/-- C9 (amended): for requested depths up to 20 the subscription depth is
the smallest supported value (5, 10 or 20) that is ≥ the request; a request
above 20 is clamped down to 20. -/
theorem c9_normalize_depth_rounds_up (d : Nat) :
    (d ≤ 20 →
      (normalize_depth d = 5 ∨ normalize_depth d = 10 ∨ normalize_depth d = 20) ∧
      d ≤ normalize_depth d ∧
      (∀ s, (s = 5 ∨ s = 10 ∨ s = 20) → d ≤ s → normalize_depth d ≤ s)) ∧
    (20 < d → normalize_depth d = 20) := by
  unfold normalize_depth
  constructor
  · intro hd
    refine ⟨?_, ?_, ?_⟩
    · split_ifs <;> omega
    · split_ifs <;> omega
    · intro s hs hds
      rcases hs with h | h | h <;> subst h <;> split_ifs <;> omega
  · intro hd
    split_ifs <;> omega

/-- C9 witness: a request of 7 is raised to a supported depth ≥ 7, and a
request of 25 is clamped to 20. -/
theorem c9_normalize_depth_witness :
    7 ≤ normalize_depth 7 ∧ normalize_depth 25 = 20 :=
  ⟨((c9_normalize_depth_rounds_up 7).1 (by decide)).2.1,
    (c9_normalize_depth_rounds_up 25).2 (by decide)⟩

/-- Strings with equal character data are equal. -/
theorem eq_of_data {a b : String} (h : a.data = b.data) : a = b := by
  cases a; cases b; simp_all

/-- Characters that are neither `/` nor `_` survive the
slash→underscore→slash round trip unchanged. -/
theorem map_sym_pair_id (l : List Char) (hl : ∀ c ∈ l, c ≠ '/' ∧ c ≠ '_') :
    ((l.map fun c => if c = '/' then '_' else c).map
      fun c => if c = '_' then '/' else c) = l := by
  induction l with
  | nil => rfl
  | cons x xs ih =>
    obtain ⟨h1, h2⟩ := hl x (List.mem_cons_self x xs)
    simp only [List.map_cons, if_neg h1, if_neg h2]
    rw [ih fun c hc => hl c (List.mem_cons_of_mem _ hc)]

/-- C7: for any pair written `"<BASE>/<QUOTE>"` whose asset codes contain
neither `/` nor `_`, `symbol_to_pair (pair_to_symbol pair) = pair`. -/
theorem c7_pair_symbol_roundtrip (base quote : String)
    (hb : ∀ c ∈ base.data, c ≠ '/' ∧ c ≠ '_')
    (hq : ∀ c ∈ quote.data, c ≠ '/' ∧ c ≠ '_') :
    symbol_to_pair (pair_to_symbol (base ++ "/" ++ quote)) =
      base ++ "/" ++ quote := by
  apply eq_of_data
  have hdata : (base ++ "/" ++ quote).data = base.data ++ '/' :: quote.data := by
    rw [String.data_append, String.data_append]
    simp [show ("/" : String).data = ['/'] from rfl]
  simp only [symbol_to_pair, pair_to_symbol, replaceChar]
  rw [hdata]
  simp only [List.map_append, List.map_cons, reduceIte]
  rw [map_sym_pair_id base.data hb, map_sym_pair_id quote.data hq]

/-- C7 witness: the round trip at `"BTC/USDT"`. -/
theorem c7_pair_symbol_roundtrip_witness :
    symbol_to_pair (pair_to_symbol ("BTC" ++ "/" ++ "USDT")) =
      "BTC" ++ "/" ++ "USDT" :=
  c7_pair_symbol_roundtrip "BTC" "USDT" (by decide) (by decide)

/-- C3 counterexample: a REST orderbook snapshot carrying a level with
quantity `"0"` produces an `Orderbook` that *keeps* the zero-quantity
level in `bids`, because `OrderbookResponse::to_orderbook` goes through
`parse_price_levels`, which does not filter removals. -/
theorem c3_rest_snapshot_keeps_zero_quantity :
    ((OrderbookResponse.to_orderbook ⟨1, none, [], ["100", "0"], 1⟩
      "BTC/USDT").bids.any fun l => l.quantity.is_zero) = true := by
  rfl

/-- Every level produced by the websocket decoder `parse_levels` has a
nonzero quantity. -/
theorem parse_levels_no_zero (levels : List (List String)) :
    ∀ l ∈ parse_levels levels, l.quantity.is_zero = false := by
  induction levels with
  | nil => intro l hl; simp [parse_levels] at hl
  | cons level rest ih =>
    intro l hl
    rcases level with _ | ⟨p, _ | ⟨q, tail⟩⟩
    · exact ih l (by simpa [parse_levels] using hl)
    · exact ih l (by simpa [parse_levels] using hl)
    · simp only [parse_levels] at hl
      cases hp : Decimal.from_str p with
      | none => rw [hp] at hl; exact ih l hl
      | some price =>
        cases hq : Decimal.from_str q with
        | none => rw [hp, hq] at hl; exact ih l hl
        | some quantity =>
          rw [hp, hq] at hl
          have hl' : l ∈
              (if quantity.is_zero then parse_levels rest
               else ⟨price, quantity⟩ :: parse_levels rest) := hl
          by_cases hz : quantity.is_zero
          · rw [if_pos hz] at hl'; exact ih l hl'
          · rw [if_neg hz] at hl'
            rcases List.mem_cons.mp hl' with h | h
            · subst h; simpa using hz
            · exact ih l h

/-- C3 (amended): every `Orderbook` decoded from a *streaming* message by
`parse_message` is free of zero-quantity levels in both `bids` and `asks`
(the REST snapshot path does not share this property, see the
counterexample above). -/
theorem c3_streaming_no_zero_quantity (msg : OrderbookMessage)
    (ob : Orderbook) (h : parse_message msg = some ob) :
    (∀ l ∈ ob.bids, l.quantity.is_zero = false) ∧
    (∀ l ∈ ob.asks, l.quantity.is_zero = false) := by
  have hdata : ∃ data : OrderbookData,
      ob.bids = parse_levels data.bids ∧ ob.asks = parse_levels data.asks := by
    unfold parse_message at h
    have hparse : ∀ (hm : parse_message.parse_message_data msg = some ob),
        ∃ data : OrderbookData,
          ob.bids = parse_levels data.bids ∧
          ob.asks = parse_levels data.asks := by
      intro hm
      unfold parse_message.parse_message_data at hm
      rcases hd : msg.data with _ | d <;> rw [hd] at hm
      · simp at hm
      · rcases d with _ | ⟨data, ds⟩
        · simp at hm
        · refine ⟨data, ?_⟩
          simp only [Option.bind_eq_bind, Option.some_bind, List.head?_cons] at hm
          cases hm
          exact ⟨rfl, rfl⟩
    split at h
    · exact absurd h (by simp)
    · rcases hev : msg.event with _ | e <;> rw [hev] at h
      · exact hparse h
      · have h' : (if e = "subscribe" ∨ e = "pong" then none
            else parse_message.parse_message_data msg) = some ob := h
        by_cases he : e = "subscribe" ∨ e = "pong"
        · rw [if_pos he] at h'; exact absurd h' (by simp)
        · rw [if_neg he] at h'; exact hparse h'
  obtain ⟨data, hbids, hasks⟩ := hdata
  rw [hbids, hasks]
  exact ⟨parse_levels_no_zero data.bids, parse_levels_no_zero data.asks⟩

/-- C3 witness: a concrete book message with one zero-quantity bid and one
live ask decodes to an orderbook with the bid filtered out. -/
theorem c3_streaming_witness :
    (∀ l ∈ (Orderbook.mk "BTC/USDT" "poloniex" []
        [⟨⟨1, 0⟩, ⟨2, 0⟩⟩] 5).bids, l.quantity.is_zero = false) ∧
    (∀ l ∈ (Orderbook.mk "BTC/USDT" "poloniex" []
        [⟨⟨1, 0⟩, ⟨2, 0⟩⟩] 5).asks, l.quantity.is_zero = false) :=
  c3_streaming_no_zero_quantity
    ⟨some "book", none,
      some [⟨"BTC_USDT", some 1, [["1", "2"]], [["3", "0"]], 7, some 5⟩]⟩
    ⟨"BTC/USDT", "poloniex", [], [⟨⟨1, 0⟩, ⟨2, 0⟩⟩], 5⟩ (by rfl)

/-- Outcome of each request in a sequence that stays inside one rate-limit
window, starting from a counter `c ≤ limit`: the request at offset `i`
passes while `c + i < limit` and fails with
`RateLimitExceeded { current: limit, limit }` afterwards. -/
theorem run_requests_outcomes (limit : Nat) :
    ∀ (times : List Nat) (w c : Nat), c ≤ limit →
    (∀ t ∈ times, t - w ≤ 5000) →
    (run_requests limit times ⟨w, c⟩).1 =
      (List.range times.length).map fun i =>
        if c + i < limit then Except.ok ()
        else Except.error (.RateLimitExceeded limit limit) := by
  intro times
  induction times with
  | nil => intro w c _ _; rfl
  | cons t ts ih =>
    intro w c hc hw
    have ht : t - w ≤ 5000 := hw t (List.mem_cons_self t ts)
    have hstep : request_rl limit t ⟨w, c⟩ =
        if c < limit then (Except.ok (), ⟨w, c + 1⟩)
        else (Except.error (.RateLimitExceeded c limit), ⟨w, c⟩) := by
      unfold request_rl check_rate_limit
      rw [if_neg (by omega : ¬ t - w > 5000)]
      by_cases hcl : c ≥ limit
      · rw [if_pos hcl, if_neg (by omega)]
      · rw [if_neg hcl, if_pos (by omega)]; rfl
    have hw' : ∀ t' ∈ ts, t' - w ≤ 5000 :=
      fun t' ht' => hw t' (List.mem_cons_of_mem _ ht')
    simp only [run_requests, hstep, List.length_cons]
    rw [List.range_succ_eq_map, List.map_cons, List.map_map]
    by_cases hcl : c < limit
    · rw [if_pos hcl]
      simp only
      rw [ih w (c + 1) (by omega) hw']
      refine congrArg₂ _ (by rw [if_pos (by omega)]) ?_
      refine List.map_congr_left fun i _ => ?_
      simp only [Function.comp]
      by_cases h2 : c + 1 + i < limit
      · rw [if_pos h2, if_pos (by omega)]
      · rw [if_neg h2, if_neg (by omega)]
    · have hceq : c = limit := by omega
      subst hceq
      rw [if_neg hcl]
      simp only
      rw [ih w c (by omega) hw']
      refine congrArg₂ _ (by rw [if_neg (by omega)]) ?_
      refine List.map_congr_left fun i _ => ?_
      simp only [Function.comp]
      rw [if_neg (by omega), if_neg (by omega)]

/-- C5: for requests issued inside one rate-limit window starting from a
fresh counter, every request gets exactly one synchronous outcome (one
result per request — nothing queued, blocked or dropped); the first `limit`
of them pass the check and every later one — in particular the
`(limit+1)`-th — fails with `RateLimitExceeded { current: limit, limit }`.
Independently, an expired window resets both the counter and the window
start before the check, behaving exactly like a window freshly started
`now`. -/
theorem c5_rate_limit_window (limit : Nat) (times : List Nat) (w : Nat)
    (hw : ∀ t ∈ times, t - w ≤ 5000) :
    ((run_requests limit times ⟨w, 0⟩).1.length = times.length ∧
      ∀ i, i < times.length →
        (run_requests limit times ⟨w, 0⟩).1[i]? =
          some (if i < limit then Except.ok ()
                else Except.error (.RateLimitExceeded limit limit))) ∧
    ∀ (now : Nat) (s : RateLimitState), now - s.window_start > 5000 →
      check_rate_limit limit now s = check_rate_limit limit now ⟨now, 0⟩ := by
  have hout := run_requests_outcomes limit times w 0 (Nat.zero_le _) hw
  refine ⟨⟨by rw [hout]; simp, fun i hi => ?_⟩, fun now s h => ?_⟩
  · rw [hout]
    simp [List.getElem?_map, List.getElem?_range, hi]
  · unfold check_rate_limit
    rw [if_pos h, if_neg (by omega : ¬ now - now > 5000)]

/-- C5 witness: with limit 2 and three requests in one window, the third
request (index 2) fails with `RateLimitExceeded { current: 2, limit: 2 }`,
and an expired-window check equals a fresh-window check. -/
theorem c5_rate_limit_window_witness :
    (run_requests 2 [1, 2, 3] ⟨0, 0⟩).1[2]? =
      some (Except.error (.RateLimitExceeded 2 2)) ∧
    check_rate_limit 2 9000 ⟨0, 2⟩ = check_rate_limit 2 9000 ⟨9000, 0⟩ := by
  have h := c5_rate_limit_window 2 [1, 2, 3] 0 (by decide)
  exact ⟨by simpa using h.1.2 2 (by decide), h.2 9000 ⟨0, 2⟩ (by decide)⟩

/-- Key membership after `hmInsert`: the inserted key is present, all other
keys are untouched. -/
theorem hmContains_hmInsert {α : Type} (m : List (String × α)) (k : String)
    (v : α) (k' : String) :
    hmContains (hmInsert m k v) k' = (hmContains m k' || (k' = k)) := by
  unfold hmInsert hmContains
  by_cases hk : m.any fun kv => kv.1 = k
  · rw [if_pos hk, List.any_map]
    have hcomp : ((fun kv : String × α => decide (kv.1 = k')) ∘
        fun kv => if kv.1 = k then (k, v) else kv) =
        fun kv => decide (kv.1 = k') := by
      funext kv
      by_cases h : kv.1 = k
      · simp [h]
      · simp [h]
    rw [hcomp]
    by_cases hk' : k' = k
    · subst hk'
      simp [hk]
    · simp [hk']
  · rw [if_neg hk, List.any_append]
    simp [eq_comm]

/-- The filter `get_balances` applies to one wire balance: parse
`available` (zero on failure) and keep only strictly positive values. -/
def balance_included (b : Balance) : Bool :=
  ((Decimal.from_str b.available).getD default).is_sign_positive &&
    !((Decimal.from_str b.available).getD default).is_zero

/-- Membership in the map after folding one SPOT account's balances. -/
theorem insert_spot_contains (bs : List Balance) :
    ∀ (m : List (String × Decimal)) (c : String),
    hmContains (insert_spot_balances m bs) c =
      (hmContains m c ||
        bs.any fun b => (b.currency = c) && balance_included b) := by
  induction bs with
  | nil => intro m c; simp [insert_spot_balances]
  | cons b rest ih =>
    intro m c
    have hstep : insert_spot_balances m (b :: rest) =
        insert_spot_balances
          (if balance_included b then
            hmInsert m b.currency ((Decimal.from_str b.available).getD default)
          else m) rest := rfl
    rw [hstep, ih]
    by_cases hb : balance_included b
    · rw [if_pos hb, hmContains_hmInsert]
      by_cases hcur : c = b.currency
      · subst hcur
        simp [hb, List.any_cons, Bool.or_assoc]
      · have h3 : ¬ b.currency = c := fun h => hcur h.symm
        simp [hb, hcur, h3, List.any_cons]
    · rw [if_neg hb]
      simp [hb, List.any_cons]

/-- Membership in the map after folding all accounts: non-SPOT accounts
contribute nothing. -/
theorem collect_aux_contains (accounts : List AccountBalance) :
    ∀ (m : List (String × Decimal)) (c : String),
    hmContains (collect_balances_aux m accounts) c =
      (hmContains m c ||
        accounts.any fun a =>
          (a.account_type = "SPOT") &&
            a.balances.any fun b => (b.currency = c) && balance_included b) := by
  induction accounts with
  | nil => intro m c; simp [collect_balances_aux]
  | cons a rest ih =>
    intro m c
    have hstep : collect_balances_aux m (a :: rest) =
        collect_balances_aux
          (if a.account_type ≠ "SPOT" then m
           else insert_spot_balances m a.balances) rest := rfl
    rw [hstep, ih]
    by_cases ha : a.account_type = "SPOT"
    · rw [if_neg (by simpa using ha), insert_spot_contains]
      simp [ha, List.any_cons, Bool.or_assoc]
    · rw [if_pos (by simpa using ha)]
      simp [ha, List.any_cons]

/-- C10: on a successful response `get_balances` returns the collected map,
and a currency is present in that map exactly when some `"SPOT"` account
carries it with a strictly positive parsed `available` balance — currencies
of non-SPOT accounts and currencies whose `available` is zero, negative or
unparsable contribute nothing.  The last conjunct spells out the filter:
a balance is included iff its `available` field parses to a strictly
positive decimal. -/
theorem c10_get_balances_spot_positive (accounts : List AccountBalance)
    (c : String) :
    get_balances true (.ok (.ok accounts)) = .ok (collect_balances accounts) ∧
    (hmContains (collect_balances accounts) c =
      accounts.any fun a =>
        (a.account_type = "SPOT") &&
          a.balances.any fun b => (b.currency = c) && balance_included b) ∧
    ∀ b : Balance, balance_included b = true ↔
      ∃ d, Decimal.from_str b.available = some d ∧ 0 < d.mantissa := by
  refine ⟨rfl, ?_, ?_⟩
  · unfold collect_balances
    rw [collect_aux_contains]
    simp [hmContains]
  · intro b
    unfold balance_included
    cases hd : Decimal.from_str b.available with
    | none =>
      simp [hd, Decimal.is_sign_positive, Decimal.is_zero, default]
    | some d =>
      simp only [hd, Option.getD_some, Decimal.is_sign_positive,
        Decimal.is_zero, Bool.and_eq_true, decide_eq_true_eq,
        Bool.not_eq_true', decide_eq_false_iff_not, Option.some.injEq]
      constructor
      · rintro ⟨h1, h2⟩; exact ⟨d, rfl, by omega⟩
      · rintro ⟨d', hd', h⟩; cases hd'; exact ⟨by omega, by omega⟩

/-- Characters with equal scalar values are equal. -/
theorem char_eq_of_toNat {a b : Char} (h : a.toNat = b.toNat) : a = b :=
  Char.ext (UInt32.ext (by simpa using h))

/-- `lexLe` is total. -/
theorem lexLe_total : ∀ a b : List Char, lexLe a b = true ∨ lexLe b a = true
  | [], _ => Or.inl rfl
  | _ :: _, [] => Or.inr rfl
  | x :: xs, y :: ys => by
    unfold lexLe
    by_cases h1 : x.toNat < y.toNat
    · left; rw [if_pos h1]
    · by_cases h2 : y.toNat < x.toNat
      · right; rw [if_pos h2]
      · rw [if_neg h1, if_neg h2, if_neg h2, if_neg h1]
        exact lexLe_total xs ys

/-- `lexLe` is transitive. -/
theorem lexLe_trans : ∀ a b c : List Char,
    lexLe a b = true → lexLe b c = true → lexLe a c = true
  | [], _, _, _, _ => rfl
  | _ :: _, [], _, h1, _ => by simp [lexLe] at h1
  | _ :: _, _ :: _, [], _, h2 => by simp [lexLe] at h2
  | x :: xs, y :: ys, z :: zs, h1, h2 => by
    unfold lexLe at h1 h2 ⊢
    by_cases hxy : x.toNat < y.toNat
    · by_cases hyz : y.toNat < z.toNat
      · rw [if_pos (show x.toNat < z.toNat by omega)]
      · by_cases hzy : z.toNat < y.toNat
        · rw [if_neg hyz, if_pos hzy] at h2; exact absurd h2 (by simp)
        · rw [if_pos (show x.toNat < z.toNat by omega)]
    · by_cases hyx : y.toNat < x.toNat
      · rw [if_neg hxy, if_pos hyx] at h1
        exact absurd h1 (by simp)
      · rw [if_neg hxy, if_neg hyx] at h1
        by_cases hyz : y.toNat < z.toNat
        · rw [if_pos (show x.toNat < z.toNat by omega)]
        · by_cases hzy : z.toNat < y.toNat
          · rw [if_neg hyz, if_pos hzy] at h2; exact absurd h2 (by simp)
          · rw [if_neg hyz, if_neg hzy] at h2
            rw [if_neg (show ¬ x.toNat < z.toNat by omega),
              if_neg (show ¬ z.toNat < x.toNat by omega)]
            exact lexLe_trans xs ys zs h1 h2

/-- `lexLe` is antisymmetric. -/
theorem lexLe_antisymm : ∀ a b : List Char,
    lexLe a b = true → lexLe b a = true → a = b
  | [], [], _, _ => rfl
  | [], _ :: _, _, h2 => by simp [lexLe] at h2
  | _ :: _, [], h1, _ => by simp [lexLe] at h1
  | x :: xs, y :: ys, h1, h2 => by
    unfold lexLe at h1 h2
    by_cases hxy : x.toNat < y.toNat
    · rw [if_neg (by omega), if_pos hxy] at h2
      exact absurd h2 (by simp)
    · by_cases hyx : y.toNat < x.toNat
      · rw [if_neg hxy, if_pos hyx] at h1
        exact absurd h1 (by simp)
      · rw [if_neg hxy, if_neg hyx] at h1
        rw [if_neg hyx, if_neg hxy] at h2
        rw [char_eq_of_toNat (show x.toNat = y.toNat by omega),
          lexLe_antisymm xs ys h1 h2]

/-- `strLe` is total. -/
theorem strLe_total (a b : String) : strLe a b = true ∨ strLe b a = true :=
  lexLe_total a.data b.data

/-- `strLe` is transitive. -/
theorem strLe_trans {a b c : String} (h1 : strLe a b = true)
    (h2 : strLe b c = true) : strLe a c = true :=
  lexLe_trans a.data b.data c.data h1 h2

/-- `strLe` is antisymmetric. -/
theorem strLe_antisymm {a b : String} (h1 : strLe a b = true)
    (h2 : strLe b a = true) : a = b :=
  eq_of_data (lexLe_antisymm a.data b.data h1 h2)

/-- A list whose image under `f` has no duplicates is pairwise
`f`-distinct. -/
theorem pairwise_ne_of_nodup_map {α β : Type} (l : List α) (f : α → β)
    (h : (l.map f).Nodup) : l.Pairwise fun a b => f a ≠ f b := by
  induction l with
  | nil => exact List.Pairwise.nil
  | cons x xs ih =>
    rw [List.map_cons, List.nodup_cons] at h
    refine List.Pairwise.cons (fun b hb hfb => ?_) (ih h.2)
    exact h.1 (hfb ▸ List.mem_map_of_mem f hb)

/-- C8: the GET/DELETE signing payload depends only on the key-value
contents of the parameter map, not on the order the `HashMap` yields them:
any two iteration orders of the same map (permutations of the same
bindings, with the map's keys necessarily distinct) produce byte-identical
payloads, because the parameters are sorted by key before joining. -/
theorem c8_payload_iteration_order_independent
    (l1 l2 : List (String × String)) (hperm : l1.Perm l2)
    (hnodup : (l1.map Prod.fst).Nodup) :
    build_query_payload l1 = build_query_payload l2 := by
  haveI hT : IsTotal (String × String) fun a b => strLe a.1 b.1 = true :=
    ⟨fun a b => strLe_total a.1 b.1⟩
  haveI hTr : IsTrans (String × String) fun a b => strLe a.1 b.1 = true :=
    ⟨fun _ _ _ h1 h2 => strLe_trans h1 h2⟩
  haveI hA : IsAntisymm (String × String)
      fun a b => (strLe a.1 b.1 = true) ∧ a.1 ≠ b.1 :=
    ⟨fun a b h1 h2 => absurd (strLe_antisymm h1.1 h2.1) h1.2⟩
  have hs1p : (sorted_params l1).Perm l1 := List.perm_insertionSort _ l1
  have hs2p : (sorted_params l2).Perm l2 := List.perm_insertionSort _ l2
  have hperm12 : (sorted_params l1).Perm (sorted_params l2) :=
    (hs1p.trans hperm).trans hs2p.symm
  have hsorted1 := List.sorted_insertionSort
    (fun a b : String × String => strLe a.1 b.1 = true) l1
  have hsorted2 := List.sorted_insertionSort
    (fun a b : String × String => strLe a.1 b.1 = true) l2
  have hn1 : ((sorted_params l1).map Prod.fst).Nodup :=
    ((hs1p.map Prod.fst).symm).nodup hnodup
  have hn2 : ((sorted_params l2).map Prod.fst).Nodup :=
    ((hs2p.map Prod.fst).symm).nodup ((hperm.map Prod.fst).nodup hnodup)
  have hne1 := pairwise_ne_of_nodup_map (sorted_params l1) Prod.fst hn1
  have hne2 := pairwise_ne_of_nodup_map (sorted_params l2) Prod.fst hn2
  have hst1 : (sorted_params l1).Sorted
      fun a b => (strLe a.1 b.1 = true) ∧ a.1 ≠ b.1 := hsorted1.and hne1
  have hst2 : (sorted_params l2).Sorted
      fun a b => (strLe a.1 b.1 = true) ∧ a.1 ≠ b.1 := hsorted2.and hne2
  have heq : sorted_params l1 = sorted_params l2 :=
    List.eq_of_perm_of_sorted hperm12 hst1 hst2
  unfold build_query_payload
  rw [heq]

/-- C8 witness: two iteration orders of the map `{a ↦ 1, b ↦ 2}` produce
the same payload. -/
theorem c8_payload_iteration_order_independent_witness :
    build_query_payload [("b", "2"), ("a", "1")] =
      build_query_payload [("a", "1"), ("b", "2")] :=
  c8_payload_iteration_order_independent _ _ (by decide) (by decide)

end Spec2Proof
